import Mathlib

/-!
Shallow embedding of the SignAura non-manual-feature pipeline
(src/isl-nmf-mvp/web/app.js, the full variant with smoothing, hysteresis,
transcript and dataset export).

The classifier, smoother, transcript recorder and dataset writer operate on
already-extracted numeric feature vectors; they are embedded over `ℚ` so that
concrete runs are kernel-computable.  The geometric feature extractor computes
with `Math.hypot` (square roots) and `Math.atan2`, so it is embedded over `ℝ`.
-/

namespace SignAura

/-- A feature vector as produced by `extractFeatures` and consumed by
`smoothFeatures` / `mapToText` (field names as in the source object). -/
structure Features where
  eyeRatio : ℚ
  browRatio : ℚ
  mouthOpen : ℚ
  roll : ℚ
  nod : ℚ
  torsoLean : ℚ
  browAsymmetry : ℚ
  smileMetric : ℚ
  gazeMetric : ℚ
  deriving DecidableEq, Repr

/-- The all-zero accumulator `avgFeatures` initialised in `smoothFeatures`. -/
def zeroF : Features := ⟨0, 0, 0, 0, 0, 0, 0, 0, 0⟩

/-- One `forEach` step of `smoothFeatures`: field-wise sum accumulation. -/
def addF (a f : Features) : Features :=
  ⟨a.eyeRatio + f.eyeRatio, a.browRatio + f.browRatio, a.mouthOpen + f.mouthOpen,
   a.roll + f.roll, a.nod + f.nod, a.torsoLean + f.torsoLean,
   a.browAsymmetry + f.browAsymmetry, a.smileMetric + f.smileMetric,
   a.gazeMetric + f.gazeMetric⟩

/-- Field-wise arithmetic mean over a buffer, as computed by the
sum-then-divide-by-`count` code in `smoothFeatures`. -/
def meanF (l : List Features) : Features :=
  let s := l.foldl addF zeroF
  let c : ℚ := (l.length : ℚ)
  ⟨s.eyeRatio / c, s.browRatio / c, s.mouthOpen / c, s.roll / c, s.nod / c,
   s.torsoLean / c, s.browAsymmetry / c, s.smileMetric / c, s.gazeMetric / c⟩

/-- `SMOOTHING_WINDOW` in the source. -/
def SMOOTHING_WINDOW : ℕ := 5

/-- `smoothFeatures(rawFeatures)`: state-passing embedding.  The mutable
module-level `featureHistory` array is passed and returned explicitly.
A `null` input returns `null` at once, leaving the history untouched;
otherwise the vector is pushed, the buffer trimmed to the window by one
`shift()`, and the field-wise average of the buffer returned. -/
def smoothFeatures (raw : Option Features) (history : List Features) :
    Option Features × List Features :=
  match raw with
  | none => (none, history)
  | some f =>
    let h1 := history ++ [f]
    let h2 := if h1.length > SMOOTHING_WINDOW then h1.tail else h1
    (some (meanF h2), h2)

/-- Pushing a whole list of (non-absent) vectors through the smoother,
threading the history buffer. -/
def pushAll (vs : List Features) (h : List Features) : List Features :=
  vs.foldl (fun acc v => (smoothFeatures (some v) acc).2) h

/-- The last `n` elements of a list (used to state what the rolling buffer
holds after a run of pushes). -/
def lastN (n : ℕ) (l : List α) : List α := l.drop (l.length - n)

/-- The module-level `detectionState` object: one boolean per label. -/
structure DetectionState where
  eyesClosed : Bool
  mouthOpen : Bool
  browsRaised : Bool
  headTiltRight : Bool
  headTiltLeft : Bool
  headNod : Bool
  bodyLean : Bool
  browFurrow : Bool
  smiling : Bool
  gazingLeft : Bool
  gazingRight : Bool
  deriving DecidableEq, Repr

/-- The hysteresis update pattern repeated for every label in `mapToText`:
`if (!flag && enterC) flag = true; else if (flag && exitC) flag = false;`. -/
def hysUpdate (flag : Bool) (enterC exitC : Prop)
    [Decidable enterC] [Decidable exitC] : Bool :=
  if ¬flag ∧ enterC then true
  else if flag ∧ exitC then false
  else flag

/-- The per-label classification part of `mapToText` (everything before the
transcript logic): updates every hysteresis flag in source order, including
the mutual-exclusion clearing between the tilt pair and the gaze pair, and
collects the pushed label texts in push order. -/
def classifyStep (f : Features) (s : DetectionState) :
    DetectionState × List String :=
  let eyesClosed := hysUpdate s.eyesClosed (f.eyeRatio < 2/100) (f.eyeRatio > 3/100)
  let t1 : List String := if eyesClosed then ["eyes closed/blink"] else []
  let mouthOpen := hysUpdate s.mouthOpen (f.mouthOpen > 8/100) (f.mouthOpen < 6/100)
  let t2 : List String := if mouthOpen then ["mouth open (maybe surprise/talking)"] else []
  let browsRaised := hysUpdate s.browsRaised (f.browRatio > 12/100) (f.browRatio < 10/100)
  let t3 : List String := if browsRaised then ["eyebrows raised (surprise/ask)"] else []
  let headTiltRight1 := hysUpdate s.headTiltRight (f.roll > 10) (f.roll < 8)
  let headTiltLeft1 := if ¬s.headTiltRight ∧ f.roll > 10 then false else s.headTiltLeft
  let t4 : List String := if headTiltRight1 then ["head tilted right"] else []
  let headTiltLeft2 := hysUpdate headTiltLeft1 (f.roll < -10) (f.roll > -8)
  let headTiltRight2 := if ¬headTiltLeft1 ∧ f.roll < -10 then false else headTiltRight1
  let t5 : List String := if headTiltLeft2 then ["head tilted left"] else []
  let headNod := hysUpdate s.headNod (f.nod > 2/100) (f.nod < 1/100)
  let t6 : List String := if headNod then ["head down / nod"] else []
  let bodyLean := hysUpdate s.bodyLean (|f.torsoLean| > 8/100) (|f.torsoLean| < 5/100)
  let t7 : List String := if bodyLean then ["body leaning"] else []
  let browFurrow := hysUpdate s.browFurrow (f.browAsymmetry > 6/100) (f.browAsymmetry < 4/100)
  let t8 : List String := if browFurrow then ["brow furrow (concern)"] else []
  let smiling := hysUpdate s.smiling (f.smileMetric > 30/100) (f.smileMetric < 28/100)
  let t9 : List String := if smiling then ["smiling"] else []
  let gazingLeft1 := hysUpdate s.gazingLeft (f.gazeMetric < -(2/100)) (f.gazeMetric > -(1/100))
  let gazingRight1 := if ¬s.gazingLeft ∧ f.gazeMetric < -(2/100) then false else s.gazingRight
  let t10 : List String := if gazingLeft1 then ["looking left"] else []
  let gazingRight2 := hysUpdate gazingRight1 (f.gazeMetric > 2/100) (f.gazeMetric < 1/100)
  let gazingLeft2 := if ¬gazingRight1 ∧ f.gazeMetric > 2/100 then false else gazingLeft1
  let t11 : List String := if gazingRight2 then ["looking right"] else []
  (⟨eyesClosed, mouthOpen, browsRaised, headTiltRight2, headTiltLeft2, headNod,
    bodyLean, browFurrow, smiling, gazingLeft2, gazingRight2⟩,
   t1 ++ t2 ++ t3 ++ t4 ++ t5 ++ t6 ++ t7 ++ t8 ++ t9 ++ t10 ++ t11)

/-- The labels whose hysteresis state `mapToText` maintains. -/
inductive Label where
  | eyesClosed | mouthOpen | browsRaised | headTiltRight | headTiltLeft
  | headNod | bodyLean | browFurrow | smiling | gazingLeft | gazingRight
  deriving DecidableEq, Repr

/-- The flag of a label inside the detection state. -/
def flagOf (lab : Label) (s : DetectionState) : Bool :=
  match lab with
  | .eyesClosed => s.eyesClosed
  | .mouthOpen => s.mouthOpen
  | .browsRaised => s.browsRaised
  | .headTiltRight => s.headTiltRight
  | .headTiltLeft => s.headTiltLeft
  | .headNod => s.headNod
  | Label.bodyLean => s.bodyLean
  | .browFurrow => s.browFurrow
  | .smiling => s.smiling
  | .gazingLeft => s.gazingLeft
  | .gazingRight => s.gazingRight

/-- The scalar a label's state machine tests (for `bodyLean` the source tests
the absolute value of `torsoLean`). -/
def testedValue (lab : Label) (f : Features) : ℚ :=
  match lab with
  | .eyesClosed => f.eyeRatio
  | .mouthOpen => f.mouthOpen
  | .browsRaised => f.browRatio
  | .headTiltRight => f.roll
  | .headTiltLeft => f.roll
  | .headNod => f.nod
  | Label.bodyLean => |f.torsoLean|
  | .browFurrow => f.browAsymmetry
  | .smiling => f.smileMetric
  | .gazingLeft => f.gazeMetric
  | .gazingRight => f.gazeMetric

/-- A label's enter threshold, from the source constants. -/
def enterThr (lab : Label) : ℚ :=
  match lab with
  | .eyesClosed => 2/100
  | .mouthOpen => 8/100
  | .browsRaised => 12/100
  | .headTiltRight => 10
  | .headTiltLeft => -10
  | .headNod => 2/100
  | Label.bodyLean => 8/100
  | .browFurrow => 6/100
  | .smiling => 30/100
  | .gazingLeft => -(2/100)
  | .gazingRight => 2/100

/-- A label's exit threshold, from the source constants. -/
def exitThr (lab : Label) : ℚ :=
  match lab with
  | .eyesClosed => 3/100
  | .mouthOpen => 6/100
  | .browsRaised => 10/100
  | .headTiltRight => 8
  | .headTiltLeft => -8
  | .headNod => 1/100
  | Label.bodyLean => 5/100
  | .browFurrow => 4/100
  | .smiling => 28/100
  | .gazingLeft => -(1/100)
  | .gazingRight => 1/100

/-- The tested value lies strictly between the label's two thresholds
(the hysteresis dead zone, direction-agnostic). -/
def inDeadZone (lab : Label) (f : Features) : Prop :=
  min (enterThr lab) (exitThr lab) < testedValue lab f ∧
    testedValue lab f < max (enterThr lab) (exitThr lab)

instance (lab : Label) (f : Features) : Decidable (inDeadZone lab f) := by
  unfold inDeadZone; infer_instance

/-- Folding the classifier over a sequence of smoothed feature vectors
(one call of `mapToText` per frame, keeping only the detection state). -/
def classifySeq (fs : List Features) (s : DetectionState) : DetectionState :=
  fs.foldl (fun st f => (classifyStep f st).1) s

/-- One transcript entry `{ timestamp, text }`. -/
structure Entry where
  timestamp : String
  text : String
  deriving DecidableEq, Repr

/-- The transcript recorder's mutable state: the `transcript` array and the
`lastDetection` / `lastDetectionTime` module variables. -/
structure RecState where
  transcript : List Entry
  lastDetection : String
  lastDetectionTime : Int
  deriving DecidableEq, Repr

/-- The transcript block at the end of `mapToText`: append iff the result
text changed and more than 500 ms passed since the last recorded change;
on append update both module variables and trim the transcript to 50. -/
def recordStep (result timestamp : String) (now : Int) (r : RecState) : RecState :=
  if result ≠ r.lastDetection ∧ now - r.lastDetectionTime > 500 then
    let t1 := r.transcript ++ [⟨timestamp, result⟩]
    let t2 := if t1.length > 50 then t1.tail else t1
    ⟨t2, result, now⟩
  else r

/-- `mapToText(f)` with the ambient state (detection flags, transcript
state) and clock passed explicitly.  A `null` feature vector returns the
empty string before any state is touched. -/
def mapToText (f? : Option Features) (timestamp : String) (now : Int)
    (s : DetectionState × RecState) : (DetectionState × RecState) × String :=
  match f? with
  | none => (s, "")
  | some f =>
    let d := classifyStep f s.1
    let result := if d.2 = [] then "neutral" else String.intercalate ", " d.2
    ((d.1, recordStep result timestamp now s.2), result)

/-- A feature vector whose every field is `q` (a convenient concrete input). -/
def constF (q : ℚ) : Features := ⟨q, q, q, q, q, q, q, q, q⟩

/-- The dataset row `saveDataset` builds: the label and the feature fields in
column order, each rounded as `toFixed` rounds (4 decimals, 2 for `roll`). -/
structure DatasetRow where
  label : String
  values : List ℚ
  deriving DecidableEq, Repr

/-- `x.toFixed(d)` modelled as rounding to `d` decimal places. -/
def roundTo (d : ℕ) (q : ℚ) : ℚ := (round (q * 10 ^ d) : ℚ) / 10 ^ d

/-- The CSV row built in `saveDataset` from a feature vector. -/
def rowOf (label : String) (f : Features) : DatasetRow :=
  ⟨label,
   [roundTo 4 f.eyeRatio, roundTo 4 f.browRatio, roundTo 4 f.mouthOpen,
    roundTo 2 f.roll, roundTo 4 f.nod, roundTo 4 f.torsoLean,
    roundTo 4 f.browAsymmetry, roundTo 4 f.smileMetric, roundTo 4 f.gazeMetric]⟩

/-- The header columns written on the first dataset write. -/
def headerCols : List String :=
  ["label", "eyeRatio", "browRatio", "mouthOpen", "roll", "nod", "torsoLean",
   "browAsymmetry", "smileMetric", "gazeMetric"]

/-- The observable outcome of one `saveDataset()` call. -/
inductive SaveResult where
  | noLabel
  | nothingToSave
  | saved (headerWritten : Bool) (row : DatasetRow)
  deriving DecidableEq, Repr

/-- `saveDataset()`: empty label is rejected; empty feature history alerts
"nothing to save" and writes nothing; otherwise the LAST element of the raw
`featureHistory` buffer is serialized as one row, with the header row added
exactly when the stored dataset was empty. -/
def saveDataset (label : String) (history : List Features)
    (existingEmpty : Bool) : SaveResult :=
  if label = "" then .noLabel
  else
    match history.getLast? with
    | none => .nothingToSave
    | some f => .saved existingEmpty (rowOf label f)

/-- A landmark point (the 2-D projection used by all distance code). -/
structure PointR where
  x : ℝ
  y : ℝ

/-- A landmark array as MediaPipe delivers it: a length and the point at
each index below the length (`faceLandmarks[i]` is `undefined` at or past
the length, modelled by `lmGet` returning `none`). -/
structure LandmarkSet where
  length : ℕ
  pts : ℕ → PointR

/-- `set[i]` in JS: the point when `i` is in range, `undefined` otherwise. -/
def lmGet (s : LandmarkSet) (i : ℕ) : Option PointR :=
  if i < s.length then some (s.pts i) else none

/-- `dist(a,b) = Math.hypot(a.x-b.x, a.y-b.y)`. -/
noncomputable def dist (a b : PointR) : ℝ :=
  Real.sqrt ((a.x - b.x) ^ 2 + (a.y - b.y) ^ 2)

open Classical in
/-- `Math.atan2(y, x)`. -/
noncomputable def atan2 (y x : ℝ) : ℝ :=
  if 0 < x then Real.arctan (y / x)
  else if x < 0 ∧ 0 ≤ y then Real.arctan (y / x) + Real.pi
  else if x < 0 then Real.arctan (y / x) - Real.pi
  else if 0 < y then Real.pi / 2
  else if y < 0 then -(Real.pi / 2)
  else 0

/-- The face indices `extractFeatures` dereferences unconditionally; if any
is missing the first property access on `undefined` throws (crash). -/
def requiredFaceIdx : List ℕ :=
  [105, 159, 386, 145, 70, 300, 1, 152, 13, 14, 33, 263, 61, 291]

open Classical in
/-- The torso-lean block of `extractFeatures`.  `none` models the TypeError
thrown when the pose array is non-empty but lacks index 11 or 12; the hip
pair (23, 24) is truthiness-guarded in the source and so cannot throw, and a
`midHip` that is exactly `0` is falsy, leaving `torsoLean` at `0`. -/
noncomputable def torsoLeanOf (pose : Option LandmarkSet) : Option ℝ :=
  match pose with
  | none => some 0
  | some pl =>
    if pl.length = 0 then some 0
    else if 11 < pl.length ∧ 12 < pl.length then
      let shoulderY := ((pl.pts 11).y + (pl.pts 12).y) / 2
      let midHip : Option ℝ :=
        if 23 < pl.length ∧ 24 < pl.length then
          some (((pl.pts 23).y + (pl.pts 24).y) / 2)
        else none
      some (match midHip with
            | some m => if m ≠ 0 then shoulderY - m else 0
            | none => 0)
    else none

/-- The extracted feature vector, over `ℝ` (same fields as `Features`). -/
structure FeaturesR where
  eyeRatio : ℝ
  browRatio : ℝ
  mouthOpen : ℝ
  roll : ℝ
  nod : ℝ
  torsoLean : ℝ
  browAsymmetry : ℝ
  smileMetric : ℝ
  gazeMetric : ℝ

/-- The body of `extractFeatures` once all required face anchors are known
to be present, with the torso value already computed.  A direct transcription
of the source arithmetic. -/
noncomputable def computeFeatures (fl : LandmarkSet) (torso : ℝ) : FeaturesR :=
  let p := fl.pts
  let leftEyeTop := p 105
  let leftEyeBottom := p 159
  let rightEyeTop := p 386
  let rightEyeBottom := p 145
  let leftBrow := p 70
  let rightBrow := p 300
  let noseTip := p 1
  let chin := p 152
  let upperLip := p 13
  let lowerLip := p 14
  let eyeOpenness := (dist leftEyeTop leftEyeBottom + dist rightEyeTop rightEyeBottom) / 2
  let interOcular := dist (p 33) (p 263) + 1e-6
  let eyeRatio := eyeOpenness / interOcular
  let leftEyeCenterY := (leftEyeTop.y + leftEyeBottom.y) / 2
  let rightEyeCenterY := (rightEyeTop.y + rightEyeBottom.y) / 2
  let browEyeDist := ((leftEyeCenterY - leftBrow.y) + (rightEyeCenterY - rightBrow.y)) / 2
  let browRatio := browEyeDist / interOcular
  let mouthOpen := dist upperLip lowerLip / interOcular
  let leftEye := p 33
  let rightEye := p 263
  let dx := rightEye.x - leftEye.x
  let dy := rightEye.y - leftEye.y
  let roll := atan2 dy dx * 180 / Real.pi
  let nod := chin.y - noseTip.y
  let leftBrowDist := dist leftBrow leftEyeTop
  let rightBrowDist := dist rightBrow rightEyeTop
  let browAsymmetry := |leftBrowDist - rightBrowDist| / interOcular
  let mouthCornerLeft := p 61
  let mouthCornerRight := p 291
  let mouthWidth := dist mouthCornerLeft mouthCornerRight / interOcular
  let smileMetric := mouthWidth
  let leftIris := (lmGet fl 468).getD leftEye
  let rightIris := (lmGet fl 473).getD rightEye
  let gazeLeft := (leftIris.x - leftEye.x) + (rightIris.x - rightEye.x)
  let gazeMetric := gazeLeft / interOcular
  { eyeRatio := eyeRatio
    browRatio := browRatio
    mouthOpen := mouthOpen
    roll := roll
    nod := nod
    torsoLean := torso
    browAsymmetry := browAsymmetry
    smileMetric := smileMetric
    gazeMetric := gazeMetric }

/-- The observable outcome of one `extractFeatures` call: `absent` for the
`null`/empty early return, `crash` for a TypeError on a missing landmark,
`ok` for a computed feature vector. -/
inductive ExtractResult where
  | absent
  | crash
  | ok (f : FeaturesR)

open Classical in
/-- `extractFeatures(faceLandmarks, poseLandmarks)`.  Only `null` or a
zero-length face array is treated as absent; any other face array whose
required anchors are not all in range faults on `undefined.x`/`undefined.y`
(`crash`), as does a non-empty pose array lacking a shoulder landmark. -/
noncomputable def extractFeatures (face pose : Option LandmarkSet) : ExtractResult :=
  match face with
  | none => .absent
  | some fl =>
    if fl.length = 0 then .absent
    else if ∀ i ∈ requiredFaceIdx, i < fl.length then
      match torsoLeanOf pose with
      | none => .crash
      | some torso => .ok (computeFeatures fl torso)
    else .crash

/-- The inter-ocular reference distance of a face set. -/
noncomputable def iod (fl : LandmarkSet) : ℝ := dist (fl.pts 33) (fl.pts 263)

/-- The numerator of `eyeRatio`. -/
noncomputable def eyeNum (fl : LandmarkSet) : ℝ :=
  (dist (fl.pts 105) (fl.pts 159) + dist (fl.pts 386) (fl.pts 145)) / 2

/-- The numerator of `browRatio` (a signed vertical offset). -/
noncomputable def browNum (fl : LandmarkSet) : ℝ :=
  ((((fl.pts 105).y + (fl.pts 159).y) / 2 - (fl.pts 70).y) +
    (((fl.pts 386).y + (fl.pts 145).y) / 2 - (fl.pts 300).y)) / 2

/-- The numerator of `mouthOpen`. -/
noncomputable def mouthNum (fl : LandmarkSet) : ℝ := dist (fl.pts 13) (fl.pts 14)

/-- The numerator of `browAsymmetry`. -/
noncomputable def asymNum (fl : LandmarkSet) : ℝ :=
  |dist (fl.pts 70) (fl.pts 105) - dist (fl.pts 300) (fl.pts 386)|

/-- The numerator of `smileMetric`. -/
noncomputable def smileNum (fl : LandmarkSet) : ℝ := dist (fl.pts 61) (fl.pts 291)

/-- The numerator of `gazeMetric` (iris landmarks with eye-corner fallback). -/
noncomputable def gazeNum (fl : LandmarkSet) : ℝ :=
  (((lmGet fl 468).getD (fl.pts 33)).x - (fl.pts 33).x) +
    (((lmGet fl 473).getD (fl.pts 263)).x - (fl.pts 263).x)

/-- Uniform scaling of one point about a fixed origin by factor `k`. -/
def scalePoint (k : ℝ) (o q : PointR) : PointR :=
  ⟨o.x + k * (q.x - o.x), o.y + k * (q.y - o.y)⟩

/-- Uniform scaling of a whole landmark set about a fixed origin. -/
def scaleSet (k : ℝ) (o : PointR) (s : LandmarkSet) : LandmarkSet :=
  ⟨s.length, fun i => scalePoint k o (s.pts i)⟩

/-! ### Helper lemmas -/

lemma lastN_of_le {l : List α} {n : ℕ} (h : l.length ≤ n) : lastN n l = l := by
  simp [lastN, Nat.sub_eq_zero_of_le h]

lemma length_lastN (n : ℕ) (l : List α) :
    (lastN n l).length = l.length - (l.length - n) := by
  simp [lastN]

lemma getLast?_append_singleton (l : List α) (a : α) :
    (l ++ [a]).getLast? = some a := by
  simp

lemma take_append_take (n : ℕ) (xs ys : List α) :
    (xs ++ ys.take n).take n = (xs ++ ys).take n := by
  rw [List.take_append_eq_append_take, List.take_append_eq_append_take,
    List.take_take, Nat.min_eq_left (Nat.sub_le n xs.length)]

lemma lastN_eq_reverse_take (n : ℕ) (l : List α) :
    lastN n l = (l.reverse.take n).reverse := by
  show l.rtake n = (l.reverse.take n).reverse
  rw [List.rtake_eq_reverse_take_reverse]

lemma lastN_append_lastN (n : ℕ) (a vs : List α) :
    lastN n (lastN n a ++ vs) = lastN n (a ++ vs) := by
  rw [lastN_eq_reverse_take, lastN_eq_reverse_take, lastN_eq_reverse_take,
    List.reverse_append, List.reverse_append, List.reverse_reverse,
    take_append_take]

lemma smoothFeatures_fst (f : Features) (h0 : List Features) :
    (smoothFeatures (some f) h0).1 =
      some (meanF ((smoothFeatures (some f) h0).2)) := rfl

lemma smoothFeatures_hist (f : Features) (h0 : List Features)
    (hle : h0.length ≤ 5) :
    (smoothFeatures (some f) h0).2 = lastN 5 (h0 ++ [f]) := by
  simp only [smoothFeatures, SMOOTHING_WINDOW]
  split_ifs with h
  · have h5 : h0.length = 5 := by simp at h; omega
    have hlen : (h0 ++ [f]).length = 6 := by simp [h5]
    rw [lastN, hlen]
    simp [List.drop_one]
  · have : (h0 ++ [f]).length ≤ 5 := by simp at h ⊢; omega
    rw [lastN_of_le this]

lemma smoothFeatures_hist_len (f : Features) (h0 : List Features)
    (hle : h0.length ≤ 5) :
    (smoothFeatures (some f) h0).2.length ≤ 5 := by
  rw [smoothFeatures_hist f h0 hle, length_lastN]
  omega

lemma pushAll_eq (vs : List Features) :
    ∀ h0 : List Features, h0.length ≤ 5 → pushAll vs h0 = lastN 5 (h0 ++ vs) := by
  induction vs with
  | nil => intro h0 hle; simpa [pushAll] using (lastN_of_le hle).symm
  | cons v vs ih =>
    intro h0 hle
    have step : pushAll (v :: vs) h0 = pushAll vs ((smoothFeatures (some v) h0).2) := rfl
    rw [step, ih _ (smoothFeatures_hist_len v h0 hle),
      smoothFeatures_hist v h0 hle, lastN_append_lastN]
    simp

/-! ### Claim theorems -/

/-- C2: pushing any sequence of non-absent feature vectors through the
temporal smoother returns the field-wise arithmetic mean of the most recent
`min(n, 5)` pushed vectors (the buffer holds exactly those), and in
particular pushing six vectors with fields 1..6 yields the mean of the last
five, i.e. 4 in every field. -/
theorem smoothFeatures_mean_lastFive :
    (∀ (vs : List Features) (f : Features),
      (smoothFeatures (some f) (pushAll vs [])).1 =
        some (meanF (lastN 5 (vs ++ [f]))) ∧
      (smoothFeatures (some f) (pushAll vs [])).2 = lastN 5 (vs ++ [f])) ∧
    (smoothFeatures (some (constF 6))
        (pushAll [constF 1, constF 2, constF 3, constF 4, constF 5] [])).1 =
      some (constF 4) := by
  have hgen : ∀ (vs : List Features) (f : Features),
      (smoothFeatures (some f) (pushAll vs [])).1 =
        some (meanF (lastN 5 (vs ++ [f]))) ∧
      (smoothFeatures (some f) (pushAll vs [])).2 = lastN 5 (vs ++ [f]) := by
    intro vs f
    have h0 : pushAll vs [] = lastN 5 vs := by simpa using pushAll_eq vs [] (by simp)
    have hlen : (pushAll vs []).length ≤ 5 := by rw [h0, length_lastN]; omega
    have h2 : (smoothFeatures (some f) (pushAll vs [])).2 = lastN 5 (vs ++ [f]) := by
      rw [smoothFeatures_hist f _ hlen, h0, lastN_append_lastN]
    exact ⟨by rw [smoothFeatures_fst, h2], h2⟩
  refine ⟨hgen, ?_⟩
  rw [(hgen [constF 1, constF 2, constF 3, constF 4, constF 5] (constF 6)).1]
  have hlast : lastN 5 ([constF 1, constF 2, constF 3, constF 4, constF 5] ++ [constF 6]) =
      [constF 2, constF 3, constF 4, constF 5, constF 6] := by
    simp [lastN]
  rw [hlast]
  norm_num [meanF, addF, zeroF, constF, Features.mk.injEq]

/-- C6 counterexample: the claim says that pushing an absent vector while
the buffer is non-empty still returns the mean of the buffered vectors; in
the code `smoothFeatures(null)` returns `null` immediately, so with the
non-empty buffer `[constF 1]` the output is absent, not the buffer mean. -/
theorem smoothFeatures_absent_counterexample :
    ([constF 1] : List Features) ≠ [] ∧
    (smoothFeatures none [constF 1]).1 = none ∧
    (smoothFeatures none [constF 1]).1 ≠ some (meanF [constF 1]) := by
  exact ⟨by decide, rfl, by decide⟩

/-- C6 amended: pushing an absent vector into the smoother leaves the
history buffer unchanged (it is not cleared) and always returns absent,
regardless of whether the buffer is empty; the buffered mean is only
returned on non-absent pushes. -/
theorem smoothFeatures_absent_noop :
    ∀ h : List Features, smoothFeatures none h = (none, h) :=
  fun _ => rfl

/-- C5: an absent frame changes nothing: `extractFeatures` on an absent
face set returns absent, the smoother returns absent and leaves its buffer
untouched, and `mapToText` on an absent vector returns the empty string
without touching the hysteresis flags or the transcript state. -/
theorem absent_input_stability :
    (∀ pose : Option LandmarkSet, extractFeatures none pose = ExtractResult.absent) ∧
    (∀ h : List Features, smoothFeatures none h = (none, h)) ∧
    (∀ (ts : String) (now : Int) (s : DetectionState × RecState),
      mapToText none ts now s = (s, "")) :=
  ⟨fun _ => rfl, fun _ => rfl, fun _ _ _ => rfl⟩

/-- C9: `saveDataset` declines with a distinct "nothing to save" outcome
when the feature history is empty and writes nothing, writes the header
exactly on the first write, but the row it serializes is built from the
LAST RAW vector in `featureHistory` — not the smoothed mean the spec (and
the code comment) call for: with history `[constF 1, constF 3]` the code
saves the row of `constF 3` while the most recent smoothed vector is
`constF 2`, and the two rows differ. -/
theorem saveDataset_uses_last_raw :
    saveDataset "x" [] true = SaveResult.nothingToSave ∧
    saveDataset "" [constF 1] true = SaveResult.noLabel ∧
    saveDataset "x" [constF 1, constF 3] true =
      SaveResult.saved true (rowOf "x" (constF 3)) ∧
    meanF [constF 1, constF 3] = constF 2 ∧
    rowOf "x" (constF 3) ≠ rowOf "x" (meanF [constF 1, constF 3]) := by
  have hmean : meanF [constF 1, constF 3] = constF 2 := by
    norm_num [meanF, addF, zeroF, constF, Features.mk.injEq]
  refine ⟨rfl, rfl, rfl, hmean, ?_⟩
  rw [hmean]
  norm_num [rowOf, roundTo, constF, DatasetRow.mk.injEq, round_eq]

/-- C7: the transcript is a bounded FIFO of at most 50 entries: one
`recordStep` preserves the bound, and an appending step on a full transcript
evicts exactly the oldest entry and appends the new one at the end, leaving
exactly 50 entries. -/
theorem transcript_bound_fifo :
    (∀ (res ts : String) (now : Int) (r : RecState), r.transcript.length ≤ 50 →
      (recordStep res ts now r).transcript.length ≤ 50) ∧
    (∀ (res ts : String) (now : Int) (r : RecState), r.transcript.length = 50 →
      res ≠ r.lastDetection → now - r.lastDetectionTime > 500 →
      (recordStep res ts now r).transcript = r.transcript.tail ++ [⟨ts, res⟩] ∧
      (recordStep res ts now r).transcript.length = 50) := by
  constructor
  · intro res ts now r hle
    unfold recordStep
    split_ifs with hgate
    · simp only
      split_ifs with hlen <;> simp_all
    · exact hle
  · intro res ts now r hlen hne hdw
    have hnil : r.transcript ≠ [] := by
      intro h; rw [h] at hlen; simp at hlen
    have heq : recordStep res ts now r =
        ⟨(r.transcript ++ [(⟨ts, res⟩ : Entry)]).tail, res, now⟩ := by
      unfold recordStep
      rw [if_pos ⟨hne, hdw⟩]
      simp [hlen]
    rw [heq]
    constructor
    · exact List.tail_append_singleton_of_ne_nil hnil
    · simp [List.length_tail, hlen]

/-- Witness for transcript_bound_fifo at a concrete full transcript. -/
theorem transcript_bound_fifo_witness :
    (recordStep "y" "u" 600
        ⟨List.replicate 50 ⟨"t", "x"⟩, "x", 0⟩).transcript.length ≤ 50 ∧
    (recordStep "y" "u" 600
        ⟨List.replicate 50 ⟨"t", "x"⟩, "x", 0⟩).transcript =
      (List.replicate 50 (Entry.mk "t" "x")).tail ++ [⟨"u", "y"⟩] :=
  ⟨transcript_bound_fifo.1 "y" "u" 600 _ (by decide),
   (transcript_bound_fifo.2 "y" "u" 600 _ (by decide) (by decide) (by decide)).1⟩

lemma recordStep_of_gate {res : String} (ts : String) {now : Int} {r : RecState}
    (h1 : res ≠ r.lastDetection) (h2 : now - r.lastDetectionTime > 500) :
    recordStep res ts now r =
      ⟨(if (r.transcript ++ [(⟨ts, res⟩ : Entry)]).length > 50
          then (r.transcript ++ [(⟨ts, res⟩ : Entry)]).tail
          else r.transcript ++ [(⟨ts, res⟩ : Entry)]), res, now⟩ := by
  unfold recordStep
  rw [if_pos ⟨h1, h2⟩]

lemma recordStep_of_not_gate {res ts : String} {now : Int} {r : RecState}
    (h : ¬(res ≠ r.lastDetection ∧ now - r.lastDetectionTime > 500)) :
    recordStep res ts now r = r := by
  unfold recordStep
  rw [if_neg h]

lemma getLast?_trim (l : List Entry) (e : Entry) :
    (if (l ++ [e]).length > 50 then (l ++ [e]).tail else l ++ [e]).getLast? =
      some e := by
  split_ifs with h
  · cases l with
    | nil => simp at h
    | cons a as =>
      rw [List.cons_append, List.tail_cons]
      exact getLast?_append_singleton as e
  · exact getLast?_append_singleton l e

/-- C4: the transcript recorder appends exactly when the label text changed
and more than 500 ms passed since the last recorded change, updating
`lastDetection` and `lastDetectionTime` on append; hence two changes within
500 ms of each other append at most once, while two changes each more than
500 ms apart (and after a quiet period) both append. -/
theorem recordStep_debounce :
    (∀ (res ts : String) (now : Int) (r : RecState),
      (recordStep res ts now r ≠ r ↔
        res ≠ r.lastDetection ∧ now - r.lastDetectionTime > 500) ∧
      (res ≠ r.lastDetection → now - r.lastDetectionTime > 500 →
        (recordStep res ts now r).lastDetection = res ∧
        (recordStep res ts now r).lastDetectionTime = now ∧
        (recordStep res ts now r).transcript.getLast? = some ⟨ts, res⟩)) ∧
    (∀ (res1 res2 ts1 ts2 : String) (t1 t2 : Int) (r : RecState),
      t2 - t1 ≤ 500 →
      recordStep res1 ts1 t1 r = r ∨
        recordStep res2 ts2 t2 (recordStep res1 ts1 t1 r) =
          recordStep res1 ts1 t1 r) ∧
    (∀ (res1 res2 ts1 ts2 : String) (t1 t2 : Int) (r : RecState),
      res1 ≠ r.lastDetection → t1 - r.lastDetectionTime > 500 → res2 ≠ res1 →
      t2 - t1 > 500 →
      (recordStep res1 ts1 t1 r).transcript.getLast? = some ⟨ts1, res1⟩ ∧
      (recordStep res2 ts2 t2 (recordStep res1 ts1 t1 r)).transcript.getLast? =
        some ⟨ts2, res2⟩) := by
  refine ⟨?_, ?_, ?_⟩
  · intro res ts now r
    constructor
    · constructor
      · intro hne
        by_contra h
        exact hne (recordStep_of_not_gate h)
      · rintro ⟨h1, h2⟩
        rw [recordStep_of_gate ts h1 h2]
        intro hcontra
        have hl := congrArg RecState.lastDetection hcontra
        exact h1 hl
    · intro h1 h2
      rw [recordStep_of_gate ts h1 h2]
      exact ⟨rfl, rfl, getLast?_trim r.transcript ⟨ts, res⟩⟩
  · intro res1 res2 ts1 ts2 t1 t2 r hle
    by_cases hg : res1 ≠ r.lastDetection ∧ t1 - r.lastDetectionTime > 500
    · right
      rw [recordStep_of_gate ts1 hg.1 hg.2]
      apply recordStep_of_not_gate
      rintro ⟨-, habs⟩
      have habs2 : t2 - t1 > 500 := habs
      omega
    · left
      exact recordStep_of_not_gate hg
  · intro res1 res2 ts1 ts2 t1 t2 r h1 h2 h3 h4
    have e1 := recordStep_of_gate ts1 h1 h2
    have hl : (recordStep res1 ts1 t1 r).lastDetection = res1 := by rw [e1]
    have ht : (recordStep res1 ts1 t1 r).lastDetectionTime = t1 := by rw [e1]
    refine ⟨by rw [e1]; exact getLast?_trim r.transcript ⟨ts1, res1⟩, ?_⟩
    have h3b : res2 ≠ (recordStep res1 ts1 t1 r).lastDetection := by
      rw [hl]; exact h3
    have h4b : t2 - (recordStep res1 ts1 t1 r).lastDetectionTime > 500 := by
      rw [ht]; exact h4
    rw [recordStep_of_gate ts2 h3b h4b]
    exact getLast?_trim _ _

/-- Witness for recordStep_debounce on concrete label changes and times. -/
theorem recordStep_debounce_witness :
    (recordStep "a" "t" 600 (⟨[], "", 0⟩ : RecState) ≠ ⟨[], "", 0⟩) ∧
    (recordStep "a" "t" 600 (⟨[], "", 0⟩ : RecState) = ⟨[], "", 0⟩ ∨
      recordStep "b" "u" 700 (recordStep "a" "t" 600 ⟨[], "", 0⟩) =
        recordStep "a" "t" 600 ⟨[], "", 0⟩) ∧
    ((recordStep "a" "t" 600 (⟨[], "", 0⟩ : RecState)).transcript.getLast? =
        some ⟨"t", "a"⟩ ∧
      (recordStep "b" "u" 1200
          (recordStep "a" "t" 600 ⟨[], "", 0⟩)).transcript.getLast? =
        some ⟨"u", "b"⟩) :=
  ⟨(recordStep_debounce.1 "a" "t" 600 _).1.mpr ⟨by decide, by decide⟩,
   recordStep_debounce.2.1 "a" "b" "t" "u" 600 700 _ (by decide),
   recordStep_debounce.2.2 "a" "b" "t" "u" 600 1200 _ (by decide) (by decide)
     (by decide) (by decide)⟩

lemma hysUpdate_of_not {flag : Bool} {enterC exitC : Prop}
    [Decidable enterC] [Decidable exitC] (he : ¬enterC) (hx : ¬exitC) :
    hysUpdate flag enterC exitC = flag := by
  unfold hysUpdate
  rw [if_neg (fun h => he h.2), if_neg (fun h => hx h.2)]

lemma classify_flag_deadZone (lab : Label) (f : Features) (s : DetectionState)
    (h : inDeadZone lab f) : flagOf lab (classifyStep f s).1 = flagOf lab s := by
  obtain ⟨hlo, hhi⟩ := h
  cases lab <;>
      simp only [testedValue, enterThr, exitThr] at hlo hhi <;>
      simp only [min_def, max_def] at hlo hhi <;>
      norm_num at hlo hhi <;>
      simp only [classifyStep, flagOf]
  case eyesClosed => exact hysUpdate_of_not (by linarith) (by linarith)
  case mouthOpen => exact hysUpdate_of_not (by linarith) (by linarith)
  case browsRaised => exact hysUpdate_of_not (by linarith) (by linarith)
  case headTiltRight =>
    rw [if_neg (by rintro ⟨-, hc⟩; linarith)]
    exact hysUpdate_of_not (by linarith) (by linarith)
  case headTiltLeft =>
    rw [if_neg (by rintro ⟨-, hc⟩; linarith)]
    exact hysUpdate_of_not (by linarith) (by linarith)
  case headNod => exact hysUpdate_of_not (by linarith) (by linarith)
  case bodyLean => exact hysUpdate_of_not (by linarith) (by linarith)
  case browFurrow => exact hysUpdate_of_not (by linarith) (by linarith)
  case smiling => exact hysUpdate_of_not (by linarith) (by linarith)
  case gazingLeft =>
    rw [if_neg (by rintro ⟨-, hc⟩; linarith)]
    exact hysUpdate_of_not (by linarith) (by linarith)
  case gazingRight =>
    rw [if_neg (by rintro ⟨-, hc⟩; linarith)]
    exact hysUpdate_of_not (by linarith) (by linarith)

lemma classifySeq_deadZone (lab : Label) (fs : List Features)
    (s : DetectionState) (h : ∀ f ∈ fs, inDeadZone lab f) :
    flagOf lab (classifySeq fs s) = flagOf lab s := by
  induction fs generalizing s with
  | nil => rfl
  | cons f fs ih =>
    rw [show classifySeq (f :: fs) s = classifySeq fs ((classifyStep f s).1) from rfl,
      ih _ (fun g hg => h g (List.mem_cons_of_mem f hg)),
      classify_flag_deadZone lab f s (h f (List.mem_cons_self f fs))]

lemma mid_inDeadZone (lab : Label) (f : Features)
    (h : testedValue lab f = (enterThr lab + exitThr lab) / 2) :
    inDeadZone lab f := by
  cases lab <;>
    · constructor <;>
        simp only [inDeadZone, enterThr, exitThr, testedValue] at h ⊢ <;>
        rw [h] <;>
        simp only [min_def, max_def] <;>
        norm_num

/-- C1: classifying any sequence of feature vectors whose tested value lies
strictly between a label's exit and enter thresholds never changes that
label's hysteresis flag (ON stays ON, OFF stays OFF); in particular a value
held at the midpoint between enter and exit never toggles the flag. -/
theorem hysteresis_deadZone_preserves :
    (∀ (lab : Label) (fs : List Features) (s : DetectionState),
      (∀ f ∈ fs, inDeadZone lab f) →
      flagOf lab (classifySeq fs s) = flagOf lab s) ∧
    (∀ (lab : Label) (f : Features) (s : DetectionState),
      testedValue lab f = (enterThr lab + exitThr lab) / 2 →
      flagOf lab (classifyStep f s).1 = flagOf lab s) :=
  ⟨fun lab fs s h => classifySeq_deadZone lab fs s h,
   fun lab f s h => classify_flag_deadZone lab f s (mid_inDeadZone lab f h)⟩

/-- Witness for hysteresis_deadZone_preserves: roll held at 9 degrees,
inside the head-tilt-right dead zone (8, 10) and at its midpoint. -/
theorem hysteresis_deadZone_preserves_witness :
    flagOf Label.headTiltRight
        (classifySeq [constF 9]
          ⟨true, true, true, true, false, true, true, true, true, true, false⟩) =
      flagOf Label.headTiltRight
        ⟨true, true, true, true, false, true, true, true, true, true, false⟩ ∧
    flagOf Label.headTiltRight
        (classifyStep (constF 9)
          ⟨false, false, false, false, false, false, false, false, false, false,
            false⟩).1 =
      flagOf Label.headTiltRight
        ⟨false, false, false, false, false, false, false, false, false, false,
          false⟩ :=
  ⟨hysteresis_deadZone_preserves.1 Label.headTiltRight [constF 9] _ (by decide),
   hysteresis_deadZone_preserves.2 Label.headTiltRight (constF 9) _
     (by norm_num [testedValue, enterThr, exitThr, constF])⟩

/-! ### Extractor lemmas -/

lemma torsoLeanOf_none : torsoLeanOf none = some 0 := rfl

lemma extractFeatures_ok (fl : LandmarkSet) (pose : Option LandmarkSet) (t : ℝ)
    (hreq : ∀ i ∈ requiredFaceIdx, i < fl.length) (hne : fl.length ≠ 0)
    (hp : torsoLeanOf pose = some t) :
    extractFeatures (some fl) pose = ExtractResult.ok (computeFeatures fl t) := by
  simp only [extractFeatures]
  rw [if_neg hne, if_pos hreq, hp]

lemma required_lt_of_len {fl : LandmarkSet} (hlen : 387 ≤ fl.length) :
    ∀ i ∈ requiredFaceIdx, i < fl.length := by
  intro i hi
  simp only [requiredFaceIdx, List.mem_cons, List.not_mem_nil, or_false] at hi
  rcases hi with rfl | rfl | rfl | rfl | rfl | rfl | rfl | rfl | rfl | rfl | rfl |
    rfl | rfl | rfl <;> omega

lemma extract_ok_of_len (fl : LandmarkSet) (hlen : 387 ≤ fl.length) :
    extractFeatures (some fl) none = ExtractResult.ok (computeFeatures fl 0) :=
  extractFeatures_ok fl none 0 (required_lt_of_len hlen) (by omega) rfl

lemma extract_crash_of_short (fl : LandmarkSet) (pose : Option LandmarkSet)
    (h0 : 0 < fl.length) (h386 : fl.length ≤ 386) :
    extractFeatures (some fl) pose = ExtractResult.crash := by
  simp only [extractFeatures]
  rw [if_neg (by omega), if_neg]
  intro hreq
  have h386mem := hreq 386 (by simp [requiredFaceIdx])
  omega

lemma computeFeatures_eyeRatio (fl : LandmarkSet) (t : ℝ) :
    (computeFeatures fl t).eyeRatio = eyeNum fl / (iod fl + 1e-6) := rfl

lemma computeFeatures_browRatio (fl : LandmarkSet) (t : ℝ) :
    (computeFeatures fl t).browRatio = browNum fl / (iod fl + 1e-6) := rfl

lemma computeFeatures_mouthOpen (fl : LandmarkSet) (t : ℝ) :
    (computeFeatures fl t).mouthOpen = mouthNum fl / (iod fl + 1e-6) := rfl

lemma computeFeatures_browAsymmetry (fl : LandmarkSet) (t : ℝ) :
    (computeFeatures fl t).browAsymmetry = asymNum fl / (iod fl + 1e-6) := rfl

lemma computeFeatures_smileMetric (fl : LandmarkSet) (t : ℝ) :
    (computeFeatures fl t).smileMetric = smileNum fl / (iod fl + 1e-6) := rfl

lemma computeFeatures_gazeMetric (fl : LandmarkSet) (t : ℝ) :
    (computeFeatures fl t).gazeMetric = gazeNum fl / (iod fl + 1e-6) := rfl

/-! ### Scaling lemmas -/

lemma dist_scalePoint (k : ℝ) (hk : 0 ≤ k) (o a b : PointR) :
    dist (scalePoint k o a) (scalePoint k o b) = k * dist a b := by
  unfold dist scalePoint
  dsimp only
  rw [show o.x + k * (a.x - o.x) - (o.x + k * (b.x - o.x)) = k * (a.x - b.x) by ring,
    show o.y + k * (a.y - o.y) - (o.y + k * (b.y - o.y)) = k * (a.y - b.y) by ring,
    show (k * (a.x - b.x)) ^ 2 + (k * (a.y - b.y)) ^ 2 =
      k ^ 2 * ((a.x - b.x) ^ 2 + (a.y - b.y) ^ 2) by ring,
    Real.sqrt_mul (sq_nonneg k), Real.sqrt_sq_eq_abs, abs_of_nonneg hk]

lemma scaleSet_pts (k : ℝ) (o : PointR) (fl : LandmarkSet) (i : ℕ) :
    (scaleSet k o fl).pts i = scalePoint k o (fl.pts i) := rfl

lemma scaleSet_length (k : ℝ) (o : PointR) (fl : LandmarkSet) :
    (scaleSet k o fl).length = fl.length := rfl

lemma lmGet_scale (k : ℝ) (o : PointR) (fl : LandmarkSet) (i : ℕ) :
    lmGet (scaleSet k o fl) i = (lmGet fl i).map (scalePoint k o) := by
  unfold lmGet
  rw [scaleSet_length]
  split_ifs <;> rfl

lemma iod_scale (k : ℝ) (hk : 0 ≤ k) (o : PointR) (fl : LandmarkSet) :
    iod (scaleSet k o fl) = k * iod fl := by
  unfold iod
  rw [scaleSet_pts, scaleSet_pts, dist_scalePoint k hk]

lemma eyeNum_scale (k : ℝ) (hk : 0 ≤ k) (o : PointR) (fl : LandmarkSet) :
    eyeNum (scaleSet k o fl) = k * eyeNum fl := by
  unfold eyeNum
  rw [scaleSet_pts, scaleSet_pts, scaleSet_pts, scaleSet_pts,
    dist_scalePoint k hk, dist_scalePoint k hk]
  ring

lemma browNum_scale (k : ℝ) (o : PointR) (fl : LandmarkSet) :
    browNum (scaleSet k o fl) = k * browNum fl := by
  unfold browNum
  simp only [scaleSet_pts, scalePoint]
  ring

lemma mouthNum_scale (k : ℝ) (hk : 0 ≤ k) (o : PointR) (fl : LandmarkSet) :
    mouthNum (scaleSet k o fl) = k * mouthNum fl := by
  unfold mouthNum
  rw [scaleSet_pts, scaleSet_pts, dist_scalePoint k hk]

lemma asymNum_scale (k : ℝ) (hk : 0 ≤ k) (o : PointR) (fl : LandmarkSet) :
    asymNum (scaleSet k o fl) = k * asymNum fl := by
  unfold asymNum
  simp only [scaleSet_pts]
  rw [dist_scalePoint k hk, dist_scalePoint k hk, ← mul_sub, abs_mul,
    abs_of_nonneg hk]

lemma smileNum_scale (k : ℝ) (hk : 0 ≤ k) (o : PointR) (fl : LandmarkSet) :
    smileNum (scaleSet k o fl) = k * smileNum fl := by
  unfold smileNum
  rw [scaleSet_pts, scaleSet_pts, dist_scalePoint k hk]

lemma gazeNum_scale (k : ℝ) (o : PointR) (fl : LandmarkSet) :
    gazeNum (scaleSet k o fl) = k * gazeNum fl := by
  unfold gazeNum
  rw [lmGet_scale, lmGet_scale]
  simp only [scaleSet_pts]
  rcases lmGet fl 468 with _ | p <;> rcases lmGet fl 473 with _ | q <;>
    simp only [Option.map_none', Option.map_some', Option.getD_some,
      Option.getD_none, scalePoint] <;> ring

/-- C3 amended, proved: for every positive scale factor `k` and origin, each
epsilon-floored ratio feature of the scaled face set equals
`(k*num)/(k*den + 1e-6)` where the unscaled feature is `num/(den + 1e-6)`;
so the features agree exactly when `k = 1`, but the `1e-6` floor breaks the
claimed tolerance for general `k > 0`. -/
theorem extractFeatures_scale_ratio_amended (fl : LandmarkSet) (k : ℝ)
    (o : PointR) (hk : 0 < k) (hlen : 387 ≤ fl.length) :
    ∃ F G, extractFeatures (some fl) none = ExtractResult.ok F ∧
      extractFeatures (some (scaleSet k o fl)) none = ExtractResult.ok G ∧
      F.eyeRatio = eyeNum fl / (iod fl + 1e-6) ∧
      G.eyeRatio = k * eyeNum fl / (k * iod fl + 1e-6) ∧
      F.browRatio = browNum fl / (iod fl + 1e-6) ∧
      G.browRatio = k * browNum fl / (k * iod fl + 1e-6) ∧
      F.mouthOpen = mouthNum fl / (iod fl + 1e-6) ∧
      G.mouthOpen = k * mouthNum fl / (k * iod fl + 1e-6) ∧
      F.browAsymmetry = asymNum fl / (iod fl + 1e-6) ∧
      G.browAsymmetry = k * asymNum fl / (k * iod fl + 1e-6) ∧
      F.smileMetric = smileNum fl / (iod fl + 1e-6) ∧
      G.smileMetric = k * smileNum fl / (k * iod fl + 1e-6) ∧
      F.gazeMetric = gazeNum fl / (iod fl + 1e-6) ∧
      G.gazeMetric = k * gazeNum fl / (k * iod fl + 1e-6) := by
  have hk0 : 0 ≤ k := le_of_lt hk
  refine ⟨computeFeatures fl 0, computeFeatures (scaleSet k o fl) 0,
    extract_ok_of_len fl hlen, extract_ok_of_len _ hlen,
    computeFeatures_eyeRatio fl 0, ?_, computeFeatures_browRatio fl 0, ?_,
    computeFeatures_mouthOpen fl 0, ?_, computeFeatures_browAsymmetry fl 0, ?_,
    computeFeatures_smileMetric fl 0, ?_, computeFeatures_gazeMetric fl 0, ?_⟩
  · rw [computeFeatures_eyeRatio, eyeNum_scale k hk0, iod_scale k hk0]
  · rw [computeFeatures_browRatio, browNum_scale k, iod_scale k hk0]
  · rw [computeFeatures_mouthOpen, mouthNum_scale k hk0, iod_scale k hk0]
  · rw [computeFeatures_browAsymmetry, asymNum_scale k hk0, iod_scale k hk0]
  · rw [computeFeatures_smileMetric, smileNum_scale k hk0, iod_scale k hk0]
  · rw [computeFeatures_gazeMetric, gazeNum_scale k, iod_scale k hk0]

open Classical in
/-- A concrete face set (length 468, no iris tier) whose mouth landmarks are
vertically aligned and whose eye corners are horizontally aligned, so the
relevant distances are exact rationals. -/
noncomputable def cFaceA : LandmarkSet :=
  ⟨468, fun i =>
    if i = 13 then ⟨1/2, 3/10⟩
    else if i = 14 then ⟨1/2, 2/5⟩
    else if i = 33 then ⟨3/10, 1/2⟩
    else if i = 263 then ⟨1/2, 1/2⟩
    else ⟨0, 0⟩⟩

lemma mouthNum_cFaceA : mouthNum cFaceA = 1/10 := by
  unfold mouthNum
  rw [show cFaceA.pts 13 = (⟨1/2, 3/10⟩ : PointR) from rfl,
    show cFaceA.pts 14 = (⟨1/2, 2/5⟩ : PointR) from rfl]
  unfold dist
  dsimp only
  rw [show ((1:ℝ)/2 - 1/2) ^ 2 + ((3:ℝ)/10 - 2/5) ^ 2 = (1/10) ^ 2 by norm_num]
  exact Real.sqrt_sq (by norm_num)

lemma iod_cFaceA : iod cFaceA = 1/5 := by
  unfold iod
  rw [show cFaceA.pts 33 = (⟨3/10, 1/2⟩ : PointR) from rfl,
    show cFaceA.pts 263 = (⟨1/2, 1/2⟩ : PointR) from rfl]
  unfold dist
  dsimp only
  rw [show ((3:ℝ)/10 - 1/2) ^ 2 + ((1:ℝ)/2 - 1/2) ^ 2 = (1/5) ^ 2 by norm_num]
  exact Real.sqrt_sq (by norm_num)

/-- C3 counterexample: scaling the concrete face `cFaceA` by the positive
factor 1/1000 about the origin changes the `mouthOpen` ratio by about
2.5e-3, far beyond the claimed 1e-6 tolerance, because the scaled ratio is
`(k*num)/(k*den + 1e-6)`, not `num/(den + 1e-6)`. -/
theorem extractFeatures_scale_counterexample :
    (0:ℝ) < 1/1000 ∧
    ∃ F G, extractFeatures (some cFaceA) none = ExtractResult.ok F ∧
      extractFeatures (some (scaleSet (1/1000) ⟨0, 0⟩ cFaceA)) none =
        ExtractResult.ok G ∧
      1e-6 < |G.mouthOpen - F.mouthOpen| := by
  refine ⟨by norm_num, computeFeatures cFaceA 0,
    computeFeatures (scaleSet (1/1000) ⟨0, 0⟩ cFaceA) 0,
    extract_ok_of_len _ (by decide), extract_ok_of_len _ (by decide), ?_⟩
  rw [computeFeatures_mouthOpen, computeFeatures_mouthOpen,
    mouthNum_scale _ (by norm_num), iod_scale _ (by norm_num),
    mouthNum_cFaceA, iod_cFaceA]
  rw [show (1:ℝ)/1000 * (1/10) / (1/1000 * (1/5) + 1e-6) = 100/201 by norm_num,
    show ((1:ℝ)/10) / (1/5 + 1e-6) = 100000/200001 by norm_num]
  rw [abs_sub_comm, abs_of_pos (by norm_num)]
  norm_num

/-- Witness for extractFeatures_scale_ratio_amended at the concrete face
`cFaceA` and scale factor 2. -/
theorem extractFeatures_scale_ratio_amended_witness :
    ∃ F G, extractFeatures (some cFaceA) none = ExtractResult.ok F ∧
      extractFeatures (some (scaleSet 2 ⟨0, 0⟩ cFaceA)) none =
        ExtractResult.ok G ∧
      F.eyeRatio = eyeNum cFaceA / (iod cFaceA + 1e-6) ∧
      G.eyeRatio = 2 * eyeNum cFaceA / (2 * iod cFaceA + 1e-6) ∧
      F.browRatio = browNum cFaceA / (iod cFaceA + 1e-6) ∧
      G.browRatio = 2 * browNum cFaceA / (2 * iod cFaceA + 1e-6) ∧
      F.mouthOpen = mouthNum cFaceA / (iod cFaceA + 1e-6) ∧
      G.mouthOpen = 2 * mouthNum cFaceA / (2 * iod cFaceA + 1e-6) ∧
      F.browAsymmetry = asymNum cFaceA / (iod cFaceA + 1e-6) ∧
      G.browAsymmetry = 2 * asymNum cFaceA / (2 * iod cFaceA + 1e-6) ∧
      F.smileMetric = smileNum cFaceA / (iod cFaceA + 1e-6) ∧
      G.smileMetric = 2 * smileNum cFaceA / (2 * iod cFaceA + 1e-6) ∧
      F.gazeMetric = gazeNum cFaceA / (iod cFaceA + 1e-6) ∧
      G.gazeMetric = 2 * gazeNum cFaceA / (2 * iod cFaceA + 1e-6) :=
  extractFeatures_scale_ratio_amended cFaceA 2 ⟨0, 0⟩ zero_lt_two (by decide)

/-- C8 counterexample: a malformed (non-empty, wrong-length) face landmark
set is not treated as absent — the extractor faults on the missing anchor
access (a TypeError on `undefined`), modelled as `crash`. -/
theorem extractFeatures_malformed_crash_counterexample :
    extractFeatures (some ⟨1, fun _ => ⟨0, 0⟩⟩) none = ExtractResult.crash ∧
    ExtractResult.crash ≠ ExtractResult.absent :=
  ⟨extract_crash_of_short _ none (by decide) (by decide), by simp⟩

/-- C8 amended: only a null or zero-length face set is treated as absent; a
non-empty face set missing some required anchor (length at most 386, since
index 386 is dereferenced) faults on the landmark access instead of being
treated as absent. -/
theorem extractFeatures_malformed_amended :
    (∀ pose : Option LandmarkSet, extractFeatures none pose = ExtractResult.absent) ∧
    (∀ (fl : LandmarkSet) (pose : Option LandmarkSet), fl.length = 0 →
      extractFeatures (some fl) pose = ExtractResult.absent) ∧
    (∀ (fl : LandmarkSet) (pose : Option LandmarkSet),
      0 < fl.length → fl.length ≤ 386 →
      extractFeatures (some fl) pose = ExtractResult.crash) := by
  refine ⟨fun pose => rfl, ?_,
    fun fl pose h0 h386 => extract_crash_of_short fl pose h0 h386⟩
  intro fl pose h
  simp only [extractFeatures]
  rw [if_pos h]

/-- Witness for extractFeatures_malformed_amended at concrete sets. -/
theorem extractFeatures_malformed_amended_witness :
    extractFeatures none none = ExtractResult.absent ∧
    extractFeatures (some ⟨0, fun _ => ⟨0, 0⟩⟩) none = ExtractResult.absent ∧
    extractFeatures (some ⟨3, fun _ => ⟨0, 0⟩⟩) none = ExtractResult.crash :=
  ⟨extractFeatures_malformed_amended.1 none,
   extractFeatures_malformed_amended.2.1 _ none rfl,
   extractFeatures_malformed_amended.2.2 _ none (by decide) (by decide)⟩

lemma hysUpdate_off {flag : Bool} {enterC exitC : Prop}
    [Decidable enterC] [Decidable exitC] (he : ¬enterC) (hx : exitC) :
    hysUpdate flag enterC exitC = false := by
  unfold hysUpdate
  cases flag <;> simp [he, hx]

/-- C10: a face set lacking the iris-center landmarks 468 and 473 always
extracts `gazeMetric = 0` (the eye-corner fallback makes both horizontal
offsets vanish), and classifying any vector with `gazeMetric = 0` always
leaves both gaze flags OFF, so the "looking left"/"looking right" labels can
never be active on such frames. -/
theorem gazeMetric_zero_without_iris :
    (∀ fl : LandmarkSet, 387 ≤ fl.length →
      lmGet fl 468 = none → lmGet fl 473 = none →
      ∃ F, extractFeatures (some fl) none = ExtractResult.ok F ∧
        F.gazeMetric = 0) ∧
    (∀ (f : Features) (s : DetectionState), f.gazeMetric = 0 →
      (classifyStep f s).1.gazingLeft = false ∧
      (classifyStep f s).1.gazingRight = false) := by
  constructor
  · intro fl hlen h468 h473
    refine ⟨computeFeatures fl 0, extract_ok_of_len fl hlen, ?_⟩
    rw [computeFeatures_gazeMetric]
    unfold gazeNum
    rw [h468, h473]
    simp
  · intro f s h
    have hL : ∀ b : Bool,
        hysUpdate b (f.gazeMetric < -(2/100)) (f.gazeMetric > -(1/100)) = false :=
      fun b => hysUpdate_off (by rw [h]; norm_num) (by rw [h]; norm_num)
    have hR : ∀ b : Bool,
        hysUpdate b (f.gazeMetric > 2/100) (f.gazeMetric < 1/100) = false :=
      fun b => hysUpdate_off (by rw [h]; norm_num) (by rw [h]; norm_num)
    constructor
    · show (if ¬(if ¬s.gazingLeft ∧ f.gazeMetric < -(2/100) then false
              else s.gazingRight) ∧ f.gazeMetric > 2/100 then false
            else hysUpdate s.gazingLeft (f.gazeMetric < -(2/100))
              (f.gazeMetric > -(1/100))) = false
      rw [hL]
      split_ifs <;> rfl
    · show hysUpdate
          (if ¬s.gazingLeft ∧ f.gazeMetric < -(2/100) then false
            else s.gazingRight)
          (f.gazeMetric > 2/100) (f.gazeMetric < 1/100) = false
      exact hR _

/-- Witness for gazeMetric_zero_without_iris: the concrete iris-free face
`cFaceA` and a state in which "looking left" was previously active. -/
theorem gazeMetric_zero_without_iris_witness :
    (∃ F, extractFeatures (some cFaceA) none = ExtractResult.ok F ∧
      F.gazeMetric = 0) ∧
    ((classifyStep (constF 0)
        ⟨false, false, false, false, false, false, false, false, false, true,
          false⟩).1.gazingLeft = false ∧
      (classifyStep (constF 0)
        ⟨false, false, false, false, false, false, false, false, false, true,
          false⟩).1.gazingRight = false) :=
  ⟨gazeMetric_zero_without_iris.1 cFaceA (by decide) rfl rfl,
   gazeMetric_zero_without_iris.2 (constF 0) _ rfl⟩

end SignAura
